import Mathlib

/-!
# Verification of the bitcoin-tx-signer-cli core pipeline

A shallow embedding of `src/transaction.rs`, `src/types.rs`, `src/error.rs`
and `src/config.rs` of the `bitcoin-tx-signer-cli` repository, together with
theorems settling the frozen claims C1 to C10 about that code.

Modelling conventions:

* Byte sequences are `List Nat` whose elements stay below 256 by
  construction; `u64` amounts are `Nat` (the claims are settled in the
  regime where no machine-integer overflow occurs, which matches all
  amounts the program is meant for).
* The code leans on the external `bitcoin`/`secp256k1` Rust crates.  Pure
  byte-level library functions that the spec itself describes (the script
  patterns, the weight-to-vsize rule, the script-code reconstruction, DER
  signature encoding) are modelled here as executable definitions; each
  such definition carries a comment naming the library function it stands
  for.  Opaque cryptographic or parsing primitives (WIF decoding, public
  key derivation, address decoding, the two sighash digests, ECDSA
  signing) are fields of an explicit environment `Env`, so every theorem
  about the pipeline quantifies over the primitives while the control
  flow, arithmetic and data plumbing are translated from the repository
  source.
* `error.rs` defines the error taxonomy; library-supplied error payloads
  (`source` fields) are dropped, the structured fields the claims mention
  (amounts, network names, offending hex) are kept.  Note that
  `transaction.rs` line 204 refers to a variant `AppError::IndexError`
  that `error.rs` does not declare; the embedding keeps a constructor for
  it so that the call site can be translated as written.
-/

deriving instance DecidableEq for Except

namespace TxSigner

/-! ## Bytes and hex -/

/-- Lowercase hex digit for a value below 16, as produced by
`ScriptBuf::to_hex_string`. -/
def hexChar (n : Nat) : Char :=
  if n < 10 then Char.ofNat (48 + n) else Char.ofNat (87 + n)

/-- Lowercase hex rendering of a byte sequence (`to_hex_string`). -/
def hexOfBytes (l : List Nat) : String :=
  String.mk ((l.map (fun b => [hexChar (b / 16), hexChar (b % 16)])).flatten)

/-- Value of one hex digit, accepting both cases (`hex::decode`). -/
def hexDigitVal (c : Char) : Option Nat :=
  if 48 ≤ c.toNat ∧ c.toNat ≤ 57 then some (c.toNat - 48)
  else if 97 ≤ c.toNat ∧ c.toNat ≤ 102 then some (c.toNat - 87)
  else if 65 ≤ c.toNat ∧ c.toNat ≤ 70 then some (c.toNat - 55)
  else none

/-- Hex decoding of a character list: pairs of digits, even length
(`hex::decode`). -/
def hexDecodeChars : List Char → Option (List Nat)
  | [] => some []
  | [_] => none
  | a :: b :: rest =>
    match hexDigitVal a, hexDigitVal b, hexDecodeChars rest with
    | some x, some y, some l => some ((16 * x + y) :: l)
    | _, _, _ => none

/-- Hex decoding of a string (`hex::decode` in `transaction.rs` line 53). -/
def hexDecode (s : String) : Option (List Nat) :=
  hexDecodeChars s.toList

/-! ## Script classification (`types.rs`) -/

/-- The closed script-type set of `types.rs`. -/
inductive ScriptType where
  | P2PKH
  | P2WPKH
deriving DecidableEq, Repr

/-- Modelled from the spec: the P2PKH locking-script byte pattern
`DUP HASH160 <push 20 bytes> EQUALVERIFY CHECKSIG` recognized by the
library predicate `Script::is_p2pkh` that `types.rs` calls. -/
def isP2pkh (s : List Nat) : Bool :=
  s.length == 25 && s.take 3 == [0x76, 0xa9, 0x14] && s.drop 23 == [0x88, 0xac]

/-- Modelled from the spec: the P2WPKH locking-script byte pattern
`<push-0> <push 20 bytes>` recognized by the library predicate
`Script::is_p2wpkh` that `types.rs` calls. -/
def isP2wpkh (s : List Nat) : Bool :=
  s.length == 22 && s.take 2 == [0x00, 0x14]

/-- Modelled from the spec: the implied pay-to-pubkey-hash script-code
`DUP HASH160 <hash> EQUALVERIFY CHECKSIG` reconstructed from a P2WPKH
witness program (`Script::p2wpkh_script_code`, which yields a value
exactly when the script is P2WPKH). -/
def p2wpkhScriptCode (s : List Nat) : Option (List Nat) :=
  if isP2wpkh s then some ([0x76, 0xa9, 0x14] ++ s.drop 2 ++ [0x88, 0xac])
  else none

/-! ## Error taxonomy (`error.rs`) -/

/-- The error type of `error.rs`, payloads restricted to the structured
fields the code itself constructs.  Variants whose payload is an external
library error keep only the fields written at the call sites in
`transaction.rs`. -/
inductive AppError where
  | Io
  | JsonParse (file_path : String)
  | BitcoinConsensus
  | BitcoinAddress
  | BitcoinKey
  | Secp256k1
  | SighashError (input_index : Nat)
  | SignatureError (input_index : Nat)
  | NetworkMismatch (cli_network : String) (inferred_network : String)
  | InputValidation (msg : String)
  | InsufficientFunds (available : Nat) (required : Nat) (fee : Nat)
  | ChangeAddressDerivation (msg : String)
  | TransactionBuild (msg : String)
  | UnknownScriptType (script_hex : String)
  | ScriptConversionError (msg : String)
  | Internal (msg : String)
  | IndexError (input_index : Nat)
deriving DecidableEq, Repr

/-- `ScriptType::from_script_buf` (`types.rs` lines 12-24): first match
wins, anything else is an unknown-script-type failure carrying the hex
rendering of the script. -/
def ScriptType.from_script_buf (s : List Nat) : Except AppError ScriptType :=
  if isP2pkh s then .ok .P2PKH
  else if isP2wpkh s then .ok .P2WPKH
  else .error (.UnknownScriptType (hexOfBytes s))

/-! ## Networks and keys -/

/-- The CLI network selector (`bitcoin::Network` restricted to the values
`cli.rs` can produce). -/
inductive Network where
  | bitcoin
  | testnet
  | regtest
deriving DecidableEq, Repr

/-- The network kind a WIF private key embeds (`bitcoin::NetworkKind`). -/
inductive NetworkKind where
  | main
  | test
deriving DecidableEq, Repr

/-- The `From<Network> for NetworkKind` conversion applied by
`cli_network.into()` at `transaction.rs` line 41. -/
def Network.toKind : Network → NetworkKind
  | .bitcoin => .main
  | .testnet => .test
  | .regtest => .test

/-- The Debug rendering of `bitcoin::Network`, used by the
`format` call building the network-mismatch error. -/
def Network.debugStr : Network → String
  | .bitcoin => "Bitcoin"
  | .testnet => "Testnet"
  | .regtest => "Regtest"

/-- The Debug rendering of `bitcoin::NetworkKind`, used by the
`format` call building the network-mismatch error. -/
def NetworkKind.debugStr : NetworkKind → String
  | .main => "Main"
  | .test => "Test"

/-- `bitcoin::PrivateKey`: the embedded network kind, abstract key
material, and the compression flag. -/
structure PrivateKey where
  network : NetworkKind
  inner : Nat
  compressed : Bool
deriving DecidableEq, Repr

/-! ## Configuration (`config.rs`) -/

/-- `config.rs` `UtxoInput`. -/
structure UtxoInput where
  txid : String
  vout : Nat
  script_pubkey_hex : String
  value_sats : Nat
  private_key_wif : String
  sequence : Option Nat
deriving DecidableEq, Repr

/-- `config.rs` `TransactionOutputDef`. -/
structure TransactionOutputDef where
  address : String
  value_sats : Nat
deriving DecidableEq, Repr

/-- `config.rs` `InputConfig` (the `network` string field is carried but,
as in the source, not read by `create_and_sign_transaction`, which
receives the CLI network separately). -/
structure InputConfig where
  network : String
  utxos : List UtxoInput
  outputs : List TransactionOutputDef
  fee_rate_sats_per_vb : Nat
  change_address : String
  default_sequence : Option Nat
deriving DecidableEq, Repr

/-! ## Transactions -/

/-- `bitcoin::OutPoint`, the txid kept as its 32 bytes. -/
structure OutPoint where
  txid : List Nat
  vout : Nat
deriving DecidableEq, Repr

/-- `bitcoin::TxOut`. -/
structure TxOut where
  value : Nat
  script_pubkey : List Nat
deriving DecidableEq, Repr

/-- `bitcoin::TxIn`; the witness is its list of data items. -/
structure TxIn where
  previous_output : OutPoint
  script_sig : List Nat
  sequence : Nat
  witness : List (List Nat)
deriving DecidableEq, Repr

/-- `bitcoin::Transaction`. -/
structure Transaction where
  version : Int
  lock_time : Nat
  input : List TxIn
  output : List TxOut
deriving DecidableEq, Repr

/-- `types.rs` `ProcessedUtxo`; the derived public key is recorded as its
serialized bytes. -/
structure ProcessedUtxo where
  out_point : OutPoint
  tx_out : TxOut
  private_key : PrivateKey
  public_key : List Nat
  script_type : ScriptType
  sequence : Nat
  value : Nat
deriving DecidableEq, Repr

/-- `transaction.rs` `SigningInfo`: the per-input record kept between the
digest pass and the signing pass. -/
structure SigningInfo where
  input_index : Nat
  sighash_message : List Nat
  private_key : PrivateKey
  public_key : List Nat
  script_type : ScriptType
deriving DecidableEq, Repr

/-! ## Consensus sizes and virtual size

Modelled from the spec: the standard weight-to-vsize rule (non-witness
bytes count four weight units, witness bytes one, the total is divided by
four and rounded up), as implemented by `Transaction::vsize` in the
library. -/

/-- Size of the Bitcoin variable-length integer encoding a count. -/
def varintLen (n : Nat) : Nat :=
  if n < 0xfd then 1
  else if n < 0x10000 then 3
  else if n < 0x100000000 then 5
  else 9

/-- Serialized size of one input without its witness: 36-byte outpoint,
length-prefixed script-sig, 4-byte sequence. -/
def txInBaseSize (i : TxIn) : Nat :=
  36 + varintLen i.script_sig.length + i.script_sig.length + 4

/-- Serialized size of one output: 8-byte value and length-prefixed
locking script. -/
def txOutSize (o : TxOut) : Nat :=
  8 + varintLen o.script_pubkey.length + o.script_pubkey.length

/-- Serialized size of a transaction without witness data: version,
counted inputs, counted outputs, lock time. -/
def txBaseSize (t : Transaction) : Nat :=
  4 + varintLen t.input.length + (t.input.map txInBaseSize).sum
    + varintLen t.output.length + (t.output.map txOutSize).sum + 4

/-- Serialized size of one witness stack: item count then each item
length-prefixed. -/
def witnessSize (w : List (List Nat)) : Nat :=
  varintLen w.length + (w.map (fun item => varintLen item.length + item.length)).sum

/-- Whether the transaction serializes in segwit form: some input carries
a non-empty witness. -/
def usesSegwit (t : Transaction) : Bool :=
  t.input.any (fun i => !i.witness.isEmpty)

/-- Full serialized size: the segwit form adds the two marker and flag
bytes and one witness stack per input. -/
def txTotalSize (t : Transaction) : Nat :=
  if usesSegwit t then
    txBaseSize t + 2 + (t.input.map (fun i => witnessSize i.witness)).sum
  else txBaseSize t

/-- Transaction weight: non-witness bytes four times, witness bytes
once. -/
def txWeight (t : Transaction) : Nat :=
  3 * txBaseSize t + txTotalSize t

/-- Virtual size: weight divided by four, rounded up
(`Transaction::vsize`). -/
def txVsize (t : Transaction) : Nat :=
  (txWeight t + 3) / 4

/-! ## Script push encoding

Modelled from the spec: the minimal script data pushes emitted by
`bitcoin::script::Builder::push_slice` and `push_key`. -/

/-- Minimal push of a byte string: a direct length opcode below 76, else
the one-, two- or four-byte-length push opcodes. -/
def pushData (b : List Nat) : List Nat :=
  let n := b.length
  if n < 0x4c then n :: b
  else if n < 0x100 then 0x4c :: n :: b
  else if n < 0x10000 then 0x4d :: (n % 0x100) :: (n / 0x100) :: b
  else 0x4e :: (n % 0x100) :: (n / 0x100 % 0x100) :: (n / 0x10000 % 0x100)
        :: (n / 0x1000000 % 0x100) :: b

/-! ## ECDSA signature encoding (`bitcoin::ecdsa::Signature`)

Modelled from the spec: the final signature blob is a DER-encoded ECDSA
signature followed by the one-byte sighash-type code.  The library
constructor `Signature::from_slice`, which `transaction.rs` line 247
applies, splits its argument into a trailing sighash byte (which must be
one of the six standard codes) and a strict-DER signature body; rejecting
anything else is exactly its failure mode.  The model rejects DER
integers wider than 33 bytes (out of range for the curve), which the
strict parser also refuses to produce a usable signature from. -/

/-- The six standard sighash-type codes accepted when parsing. -/
def isStandardSighash (n : Nat) : Bool :=
  n == 1 || n == 2 || n == 3 || n == 0x81 || n == 0x82 || n == 0x83

/-- A strict-DER integer body: non-empty, positive (no leading bit set),
minimally padded, at most 33 bytes with a 33rd byte only as padding. -/
def derIntOk (c : List Nat) : Bool :=
  match c with
  | [] => false
  | b :: rest =>
    b < 0x80 &&
    (b != 0 || rest.isEmpty || (rest.headD 0) ≥ 0x80) &&
    (c.length ≤ 32 || (c.length == 33 && b == 0))

/-- Strict-DER parse of a signature body into its two integer bodies:
the compound header with exact short-form length, then two tagged
integers consuming the rest exactly. -/
def derSigFields (bytes : List Nat) : Option (List Nat × List Nat) :=
  match bytes with
  | 0x30 :: len :: rest =>
    if len == rest.length && len < 0x80 then
      match rest with
      | 0x02 :: rl :: rest2 =>
        if rl < 0x80 && rl ≤ rest2.length then
          let r := rest2.take rl
          match rest2.drop rl with
          | 0x02 :: sl :: rest3 =>
            if sl < 0x80 && sl == rest3.length && derIntOk r && derIntOk rest3 then
              some (r, rest3)
            else none
          | _ => none
        else none
      | _ => none
    else none
  | _ => none

/-- `bitcoin::ecdsa::Signature` as far as its serialization is concerned:
the strict-DER body it was parsed from and the standard sighash-type
code. -/
structure EcdsaSig where
  der : List Nat
  sighash_type : Nat
deriving DecidableEq, Repr

/-- `Signature::from_slice`: take the trailing byte as the sighash-type
code (standard codes only) and parse the rest as a strict-DER
signature. -/
def ecdsaSigFromSlice (sl : List Nat) : Option EcdsaSig :=
  match sl.getLast? with
  | none => none
  | some flag =>
    let der := sl.dropLast
    if isStandardSighash flag && (derSigFields der).isSome then
      some { der := der, sighash_type := flag }
    else none

/-- `Signature::to_vec`: the DER body followed by the sighash byte (a
strict-DER body re-serializes to itself). -/
def sigToVec (s : EcdsaSig) : List Nat :=
  s.der ++ [s.sighash_type]

/-! ## The environment of opaque library primitives

The cryptographic and parsing primitives the pipeline calls but whose
internals the spec treats as external: each theorem about the pipeline
holds for every environment, and concrete test environments instantiate
them for witnesses. -/

/-- External primitives: WIF decoding, public-key derivation and
serialization, txid parsing, address decoding with its network check,
the two sighash digests over the frozen transaction, deterministic
compact ECDSA signing, and the Display rendering of a script. -/
structure Env where
  wifDecode : String → Option PrivateKey
  pubKeyBytes : PrivateKey → List Nat
  txidParse : String → Option (List Nat)
  addrScript : String → Network → Option (List Nat)
  legacySighash : Transaction → Nat → List Nat → Nat → List Nat
  segwitSighash : Transaction → Nat → List Nat → Nat → Nat → List Nat
  signCompact : Nat → List Nat → List Nat
  scriptAsm : List Nat → String

/-! ## Phase 1: UTXO normalization (`transaction.rs` lines 35-79) -/

/-- The body of the per-UTXO loop: WIF decode, network check, txid
parse, script hex decode, classification, sequence resolution
(`Sequence::MAX` is `0xffffffff`). -/
def normalizeUtxo (env : Env) (cli_network : Network) (default_sequence : Option Nat)
    (u : UtxoInput) : Except AppError ProcessedUtxo :=
  match env.wifDecode u.private_key_wif with
  | none => .error .BitcoinKey
  | some private_key =>
    if private_key.network ≠ cli_network.toKind then
      .error (.NetworkMismatch cli_network.debugStr private_key.network.debugStr)
    else
      match env.txidParse u.txid with
      | none => .error (.InputValidation u.txid)
      | some txid =>
        match hexDecode u.script_pubkey_hex with
        | none => .error (.InputValidation u.script_pubkey_hex)
        | some script_pubkey =>
          match ScriptType.from_script_buf script_pubkey with
          | .error e => .error e
          | .ok script_type =>
            let sequence := (u.sequence.or default_sequence).getD 0xffffffff
            .ok { out_point := { txid := txid, vout := u.vout }
                , tx_out := { value := u.value_sats, script_pubkey := script_pubkey }
                , private_key := private_key
                , public_key := env.pubKeyBytes private_key
                , script_type := script_type
                , sequence := sequence
                , value := u.value_sats }

/-- The whole normalization loop, also accumulating the running total of
input value; the first failure aborts. -/
def normalizeUtxos (env : Env) (cli_network : Network) (default_sequence : Option Nat) :
    List UtxoInput → Except AppError (List ProcessedUtxo × Nat)
  | [] => .ok ([], 0)
  | u :: rest =>
    match normalizeUtxo env cli_network default_sequence u with
    | .error e => .error e
    | .ok pu =>
      match normalizeUtxos env cli_network default_sequence rest with
      | .error e => .error e
      | .ok (pus, total) => .ok (pu :: pus, u.value_sats + total)

/-! ## Phase 2: recipient outputs (`transaction.rs` lines 82-94) -/

/-- The recipient-output loop: address decode with network check, locking
script derivation, running total of recipient value. -/
def buildOutputs (env : Env) (cli_network : Network) :
    List TransactionOutputDef → Except AppError (List TxOut × Nat)
  | [] => .ok ([], 0)
  | d :: rest =>
    match env.addrScript d.address cli_network with
    | none => .error (.InputValidation d.address)
    | some spk =>
      match buildOutputs env cli_network rest with
      | .error e => .error e
      | .ok (outs, total) =>
        .ok ({ value := d.value_sats, script_pubkey := spk } :: outs, d.value_sats + total)

/-! ## Phase 3: fee estimation, funds check, change, skeleton
(`transaction.rs` lines 97-179) -/

/-- The draft input used only for size estimation (`transaction.rs`
lines 97-121): a 72-byte all-zero dummy signature in the script-sig for
P2PKH, in a two-item witness with the real public key for P2WPKH. -/
def draftTxIn (pu : ProcessedUtxo) : TxIn :=
  match pu.script_type with
  | .P2PKH =>
    { previous_output := pu.out_point
    , script_sig := pushData (List.replicate 72 0) ++ pushData pu.public_key
    , sequence := pu.sequence
    , witness := [] }
  | .P2WPKH =>
    { previous_output := pu.out_point
    , script_sig := []
    , sequence := pu.sequence
    , witness := [List.replicate 72 0, pu.public_key] }

/-- The size-estimation draft (`transaction.rs` lines 123-140): the
dummy-signed inputs, the real recipient outputs, and one zero-value dummy
change output with the real change locking script. -/
def feeDraftTx (processed_utxos : List ProcessedUtxo) (outputs : List TxOut)
    (change_script : List Nat) : Transaction :=
  { version := 2
  , lock_time := 0
  , input := processed_utxos.map draftTxIn
  , output := outputs ++ [{ value := 0, script_pubkey := change_script }] }

/-- The computed fee (`transaction.rs` lines 142-143): the estimated
virtual size of the draft times the configured fee rate. -/
def computeFee (processed_utxos : List ProcessedUtxo) (outputs : List TxOut)
    (change_script : List Nat) (fee_rate : Nat) : Nat :=
  txVsize (feeDraftTx processed_utxos outputs change_script) * fee_rate

/-- The unsigned transaction skeleton (`transaction.rs` lines 169-179):
version 2, lock time 0, one input per processed UTXO with empty
unlocking data, the final output list. -/
def assembleUnsigned (processed_utxos : List ProcessedUtxo) (final_outputs : List TxOut) :
    Transaction :=
  { version := 2
  , lock_time := 0
  , input := processed_utxos.map (fun pu =>
      { previous_output := pu.out_point
      , script_sig := []
      , sequence := pu.sequence
      , witness := [] })
  , output := final_outputs }

/-! ## Phase 4: sighash computation (`transaction.rs` lines 183-237) -/

/-- `Message::from_digest_slice`: accepts exactly 32-byte digests; its
failure is wrapped as a signature error at the given input index. -/
def messageFromDigest (input_index : Nat) (d : List Nat) : Except AppError (List Nat) :=
  if d.length = 32 then .ok d else .error (.SignatureError input_index)

/-- One iteration of the digest loop: dispatch on the stored locking
script, legacy sighash for P2PKH, BIP143 sighash with the reconstructed
script-code for P2WPKH, and the fall-through unknown-script-type error
carrying the Display rendering of the script.  The sighash calls fail
only on an out-of-range input index. -/
def sighashMessageFor (env : Env) (tx : Transaction) (input_index : Nat)
    (p_utxo : ProcessedUtxo) : Except AppError (List Nat) :=
  let script := p_utxo.tx_out.script_pubkey
  if isP2pkh script then
    if input_index < tx.input.length then
      messageFromDigest input_index (env.legacySighash tx input_index script 1)
    else .error (.IndexError input_index)
  else if isP2wpkh script then
    match p2wpkhScriptCode script with
    | none => .error (.Internal "p2wpkh script code")
    | some script_code =>
      if input_index < tx.input.length then
        messageFromDigest input_index
          (env.segwitSighash tx input_index script_code p_utxo.value 1)
      else .error (.SighashError input_index)
  else .error (.UnknownScriptType (env.scriptAsm script))

/-- Package the computed digest with the key material copied out of the
processed UTXO. -/
def computeSigningInfo (env : Env) (tx : Transaction) (input_index : Nat)
    (p_utxo : ProcessedUtxo) : Except AppError SigningInfo :=
  match sighashMessageFor env tx input_index p_utxo with
  | .error e => .error e
  | .ok m =>
    .ok { input_index := input_index
        , sighash_message := m
        , private_key := p_utxo.private_key
        , public_key := p_utxo.public_key
        , script_type := p_utxo.script_type }

/-- The digest loop from a starting index. -/
def computeSigningInfosFrom (env : Env) (tx : Transaction) :
    Nat → List ProcessedUtxo → Except AppError (List SigningInfo)
  | _, [] => .ok []
  | i, pu :: rest =>
    match computeSigningInfo env tx i pu with
    | .error e => .error e
    | .ok info =>
      match computeSigningInfosFrom env tx (i + 1) rest with
      | .error e => .error e
      | .ok infos => .ok (info :: infos)

/-- The digest loop over all inputs, in index order, read-only over the
frozen unsigned transaction. -/
def computeSigningInfos (env : Env) (tx : Transaction) (processed_utxos : List ProcessedUtxo) :
    Except AppError (List SigningInfo) :=
  computeSigningInfosFrom env tx 0 processed_utxos

/-! ## Phase 5: signing and finalization (`transaction.rs` lines 243-268) -/

/-- The unlocking payload a signature application writes: a script-sig or
a witness stack. -/
inductive UnlockData where
  | scriptSig (s : List Nat)
  | witnessStack (w : List (List Nat))
deriving DecidableEq, Repr

/-- Write an unlocking payload into one input. -/
def applyPayload (p : UnlockData) (i : TxIn) : TxIn :=
  match p with
  | .scriptSig s => { i with script_sig := s }
  | .witnessStack w => { i with witness := w }

/-- Replace the element at one position of a list, leaving every other
position unchanged. -/
def listModify {α : Type} (l : List α) (n : Nat) (f : α → α) : List α :=
  match l, n with
  | [], _ => []
  | a :: rest, 0 => f a :: rest
  | a :: rest, m + 1 => a :: listModify rest m f

/-- The per-record signing step (`transaction.rs` lines 246-256): sign the
recorded digest producing a compact signature, convert it through
`Signature::from_slice`, and build the unlocking payload; for P2PKH the
blob must also fit a `PushBytesBuf`. -/
def signaturePayload (env : Env) (info : SigningInfo) : Except AppError UnlockData :=
  let secp_sig := env.signCompact info.private_key.inner info.sighash_message
  match ecdsaSigFromSlice secp_sig with
  | none => .error (.SignatureError info.input_index)
  | some btc_ecdsa_sig =>
    match info.script_type with
    | .P2PKH =>
      if (sigToVec btc_ecdsa_sig).length < 0x100000000 then
        .ok (.scriptSig (pushData (sigToVec btc_ecdsa_sig) ++ pushData info.public_key))
      else .error (.Internal "push bytes")
    | .P2WPKH =>
      .ok (.witnessStack [sigToVec btc_ecdsa_sig, info.public_key])

/-- Apply one signing record: compute its payload and write it into the
transaction input at the recorded index. -/
def applySignatureToInput (env : Env) (tx : Transaction) (info : SigningInfo) :
    Except AppError Transaction :=
  match signaturePayload env info with
  | .error e => .error e
  | .ok p => .ok { tx with input := listModify tx.input info.input_index (applyPayload p) }

/-- The signing loop (`transaction.rs` lines 243-268). -/
def applySignatures (env : Env) : Transaction → List SigningInfo → Except AppError Transaction
  | tx, [] => .ok tx
  | tx, info :: rest =>
    match applySignatureToInput env tx info with
    | .error e => .error e
    | .ok tx1 => applySignatures env tx1 rest

/-! ## The whole pipeline (`transaction.rs` `create_and_sign_transaction`) -/

/-- The Bitcoin Core dust threshold constant of `transaction.rs`. -/
def DUST_THRESHOLD_SATS : Nat := 546

/-- The dust policy (`transaction.rs` lines 154-166): the change is
appended as a final output exactly when it reaches the dust threshold;
smaller positive change is silently left to the fee. -/
def finalOutputsOf (change_value_sats : Nat) (outputs : List TxOut)
    (change_script : List Nat) : List TxOut :=
  if change_value_sats ≥ DUST_THRESHOLD_SATS then
    outputs ++ [{ value := change_value_sats, script_pubkey := change_script }]
  else outputs

/-- `create_and_sign_transaction`: normalization, recipient outputs,
change-address derivation, fee estimation on the dummy-signed draft, the
funds-sufficiency check, the dust policy on the change, the unsigned
skeleton, the digest pass, and the signing pass. -/
def create_and_sign_transaction (env : Env) (config : InputConfig) (cli_network : Network) :
    Except AppError Transaction :=
  match normalizeUtxos env cli_network config.default_sequence config.utxos with
  | .error e => .error e
  | .ok (processed_utxos, total_input_value_sats) =>
    match buildOutputs env cli_network config.outputs with
    | .error e => .error e
    | .ok (outputs, total_recipient_output_value_sats) =>
      match env.addrScript config.change_address cli_network with
      | none => .error (.ChangeAddressDerivation config.change_address)
      | some change_script =>
        let total_fee_sats :=
          computeFee processed_utxos outputs change_script config.fee_rate_sats_per_vb
        if total_input_value_sats < total_recipient_output_value_sats + total_fee_sats then
          .error (.InsufficientFunds total_input_value_sats
            (total_recipient_output_value_sats + total_fee_sats) total_fee_sats)
        else
          let change_value_sats :=
            total_input_value_sats - total_recipient_output_value_sats - total_fee_sats
          let final_outputs := finalOutputsOf change_value_sats outputs change_script
          let transaction := assembleUnsigned processed_utxos final_outputs
          match computeSigningInfos env transaction processed_utxos with
          | .error e => .error e
          | .ok signing_infos => applySignatures env transaction signing_infos

/-! ## Spec-side definitions used by refinement claims

These definitions follow the wording of the specification (not the
source) and are compared against the pipeline's own computations. -/

/-- Worst-case draft input as the spec describes it: for P2PKH an
unlocking script pushing a maximum-length 72-byte dummy signature
followed by the real public key; for P2WPKH a witness of two items, the
72-byte dummy signature and the real public key. -/
def specDraftInput (pu : ProcessedUtxo) : TxIn :=
  match pu.script_type with
  | .P2PKH =>
    { previous_output := pu.out_point
    , script_sig := pushData (List.replicate 72 0) ++ pushData pu.public_key
    , sequence := pu.sequence
    , witness := [] }
  | .P2WPKH =>
    { previous_output := pu.out_point
    , script_sig := []
    , sequence := pu.sequence
    , witness := [List.replicate 72 0, pu.public_key] }

/-- The draft transaction as the spec describes it: the worst-case
inputs, all real recipient outputs, and one zero-value dummy change
output using the real change locking script. -/
def specDraftTx (processed_utxos : List ProcessedUtxo) (outputs : List TxOut)
    (change_script : List Nat) : Transaction :=
  { version := 2
  , lock_time := 0
  , input := processed_utxos.map specDraftInput
  , output := outputs ++ [{ value := 0, script_pubkey := change_script }] }

/-! ## Observables used to state the temporal and safety claims -/

/-- Every input of the transaction has empty unlocking data. -/
def allUnlockingEmpty (t : Transaction) : Bool :=
  t.input.all (fun i => i.script_sig.isEmpty && i.witness.isEmpty)

/-- Each input of the final transaction is the matching input of the
unsigned skeleton with exactly the unlocking payload of the signing
record at the same position written into it. -/
def signaturesAppliedPointwise (env : Env) (utx : Transaction)
    (infos : List SigningInfo) (tx : Transaction) : Bool :=
  (List.range infos.length).all (fun k =>
    match infos[k]?, utx.input[k]?, tx.input[k]? with
    | some info, some orig, some fin =>
      (match signaturePayload env info with
       | .ok p => fin == applyPayload p orig
       | .error _ => false)
    | _, _, _ => false)

/-- Whether a pipeline result is the unknown-script-type error. -/
def isUnknownScriptErr {α : Type} : Except AppError α → Bool
  | .error (.UnknownScriptType _) => true
  | _ => false

/-! ## Concrete test fixtures

A small executable environment and configurations used by the witness
theorems: the opaque primitives are given simple table-driven
instantiations so the pipeline can be evaluated on concrete inputs. -/

/-- A recipient P2WPKH locking script. -/
def wpkhScriptA : List Nat := [0x00, 0x14] ++ List.replicate 20 5

/-- A change P2WPKH locking script. -/
def wpkhScriptB : List Nat := [0x00, 0x14] ++ List.replicate 20 6

/-- A P2PKH locking script. -/
def pkhScriptC : List Nat := [0x76, 0xa9, 0x14] ++ List.replicate 20 7 ++ [0x88, 0xac]

/-- A well-formed signing-backend output: a strict-DER signature body
followed by the standard SIGHASH_ALL byte, so that the conversion at
`transaction.rs` line 247 happens to succeed. -/
def goodSigBytes : List Nat := [0x30, 0x06, 0x02, 0x01, 0x2a, 0x02, 0x01, 0x2b, 0x01]

/-- A 64-byte compact ECDSA serialization of the realistic kind the
secp256k1 backend returns: 32 bytes of r then 32 bytes of s, here with a
leading byte distinct from the DER compound tag 0x30. -/
def compactSigBytes : List Nat := List.replicate 64 1

/-- Table-driven test environment whose signing backend returns a blob
the broken conversion happens to accept. -/
def testEnv : Env where
  wifDecode := fun s =>
    if s = "KwifMainA" then some { network := .main, inner := 1, compressed := true }
    else if s = "KwifTestA" then some { network := .test, inner := 1, compressed := true }
    else none
  pubKeyBytes := fun k => 0x02 :: List.replicate 32 (k.inner % 256)
  txidParse := fun s => if s.length == 64 then some (List.replicate 32 0xab) else none
  addrScript := fun a net =>
    if net = Network.testnet then
      if a = "addrW1" then some wpkhScriptA
      else if a = "addrW2" then some wpkhScriptB
      else if a = "addrP1" then some pkhScriptC
      else none
    else none
  legacySighash := fun _ _ _ _ => List.replicate 32 0x11
  segwitSighash := fun _ _ _ _ _ => List.replicate 32 0x22
  signCompact := fun _ _ => goodSigBytes
  scriptAsm := fun s => hexOfBytes s

/-- The same environment with the signing backend returning a genuine
64-byte compact serialization, as `secp.sign_ecdsa` followed by
`serialize_compact` does. -/
def compactEnv : Env :=
  { testEnv with signCompact := fun _ _ => compactSigBytes }

/-- A 64-character txid string accepted by the test txid parser. -/
def txidA : String :=
  "aaaaaaaaaaaaaaaaaaaaaaaaaaaaaaaaaaaaaaaaaaaaaaaaaaaaaaaaaaaaaaaa"

/-- A P2WPKH UTXO worth 100000 satoshis on the test network. -/
def utxoW : UtxoInput where
  txid := txidA
  vout := 0
  script_pubkey_hex := "00140505050505050505050505050505050505050505"
  value_sats := 100000
  private_key_wif := "KwifTestA"
  sequence := none

/-- Configuration: one P2WPKH UTXO, one 50000-satoshi recipient, fee
rate 1, distinct change address. -/
def cfgA : InputConfig where
  network := "testnet"
  utxos := [utxoW]
  outputs := [{ address := "addrW1", value_sats := 50000 }]
  fee_rate_sats_per_vb := 1
  change_address := "addrW2"
  default_sequence := none

/-- The normalized form of `utxoW` under `testEnv`. -/
def puW : ProcessedUtxo where
  out_point := { txid := List.replicate 32 0xab, vout := 0 }
  tx_out := { value := 100000, script_pubkey := wpkhScriptA }
  private_key := { network := .test, inner := 1, compressed := true }
  public_key := 0x02 :: List.replicate 32 1
  script_type := .P2WPKH
  sequence := 0xffffffff
  value := 100000

/-- The processed-UTXO list of `cfgA`. -/
def pusA : List ProcessedUtxo := [puW]

/-- The recipient outputs of `cfgA`. -/
def outsA : List TxOut := [{ value := 50000, script_pubkey := wpkhScriptA }]

/-- The unsigned skeleton the run of `cfgA` builds: fee 141, change
49859, change output appended. -/
def utxA : Transaction :=
  assembleUnsigned pusA (finalOutputsOf 49859 outsA wpkhScriptB)

/-- The signing records the run of `cfgA` computes. -/
def infosA : List SigningInfo :=
  [{ input_index := 0
   , sighash_message := List.replicate 32 0x22
   , private_key := { network := .test, inner := 1, compressed := true }
   , public_key := 0x02 :: List.replicate 32 1
   , script_type := .P2WPKH }]

/-- The signed transaction the run of `cfgA` returns under `testEnv`. -/
def txA : Transaction where
  version := 2
  lock_time := 0
  input := [{ previous_output := { txid := List.replicate 32 0xab, vout := 0 }
            , script_sig := []
            , sequence := 0xffffffff
            , witness := [goodSigBytes, 0x02 :: List.replicate 32 1] }]
  output := [{ value := 50000, script_pubkey := wpkhScriptA },
             { value := 49859, script_pubkey := wpkhScriptB }]

/-- Like `cfgA` but paying 99500, leaving dust change 359 that is folded
into the fee. -/
def cfgB : InputConfig :=
  { cfgA with outputs := [{ address := "addrW1", value_sats := 99500 }] }

/-- The signed transaction the run of `cfgB` returns under `testEnv`:
only the recipient output, no change output. -/
def txB : Transaction :=
  { txA with output := [{ value := 99500, script_pubkey := wpkhScriptA }] }

/-- A 1000-satoshi P2WPKH UTXO. -/
def utxoSmall : UtxoInput :=
  { utxoW with value_sats := 1000 }

/-- The normalized form of `utxoSmall`. -/
def puSmall : ProcessedUtxo :=
  { puW with tx_out := { value := 1000, script_pubkey := wpkhScriptA }, value := 1000 }

/-- Configuration with input total 1000 and output total 2000: must fail
with insufficient funds. -/
def cfgC : InputConfig :=
  { cfgA with utxos := [utxoSmall]
            , outputs := [{ address := "addrW1", value_sats := 2000 }] }

/-- Empty configuration (no UTXOs, no outputs) with fee rate 0. -/
def cfgE0 : InputConfig :=
  { cfgA with utxos := [], outputs := [], fee_rate_sats_per_vb := 0 }

/-- Empty configuration (no UTXOs, no outputs) with fee rate 1. -/
def cfgE1 : InputConfig :=
  { cfgA with utxos := [], outputs := [] }

/-- A UTXO whose WIF key embeds the main network. -/
def utxoMain : UtxoInput :=
  { utxoW with private_key_wif := "KwifMainA" }

/-- Configuration holding the main-network UTXO, run against testnet. -/
def cfgM : InputConfig :=
  { cfgA with utxos := [utxoMain] }

/-! ## Helper lemmas about the signing loop -/

theorem listModify_length {α : Type} (f : α → α) :
    ∀ (l : List α) (n : Nat), (listModify l n f).length = l.length := by
  intro l
  induction l with
  | nil => intro n; rfl
  | cons a rest ih =>
    intro n
    cases n with
    | zero => rfl
    | succ m => simp [listModify, ih]

theorem listModify_getElem_ne {α : Type} (f : α → α) :
    ∀ (l : List α) (n m : Nat), m ≠ n → (listModify l n f)[m]? = l[m]? := by
  intro l
  induction l with
  | nil => intro n m _; rfl
  | cons a rest ih =>
    intro n m hne
    cases n with
    | zero =>
      cases m with
      | zero => exact absurd rfl hne
      | succ k => simp [listModify]
    | succ n1 =>
      cases m with
      | zero => simp [listModify]
      | succ k =>
        simp only [listModify, List.getElem?_cons_succ]
        exact ih n1 k (fun h => hne (by omega))

theorem listModify_getElem_self {α : Type} (f : α → α) :
    ∀ (l : List α) (n : Nat), (listModify l n f)[n]? = (l[n]?).map f := by
  intro l
  induction l with
  | nil => intro n; cases n <;> rfl
  | cons a rest ih =>
    intro n
    cases n with
    | zero => simp [listModify]
    | succ m =>
      simp only [listModify, List.getElem?_cons_succ]
      exact ih m

theorem applySignatureToInput_ok (env : Env) (tx tx2 : Transaction) (info : SigningInfo)
    (h : applySignatureToInput env tx info = .ok tx2) :
    ∃ p, signaturePayload env info = .ok p ∧
      tx2 = { tx with input := listModify tx.input info.input_index (applyPayload p) } := by
  unfold applySignatureToInput at h
  cases hp : signaturePayload env info with
  | error e => rw [hp] at h; cases h
  | ok p =>
    rw [hp] at h
    refine ⟨p, rfl, ?_⟩
    cases h
    rfl

theorem applySignatures_preserves (env : Env) :
    ∀ (infos : List SigningInfo) (tx tx1 : Transaction),
      applySignatures env tx infos = .ok tx1 →
      tx1.version = tx.version ∧ tx1.lock_time = tx.lock_time ∧
        tx1.output = tx.output ∧ tx1.input.length = tx.input.length := by
  intro infos
  induction infos with
  | nil =>
    intro tx tx1 h
    cases h
    exact ⟨rfl, rfl, rfl, rfl⟩
  | cons info rest ih =>
    intro tx tx1 h
    unfold applySignatures at h
    cases hs : applySignatureToInput env tx info with
    | error e => rw [hs] at h; cases h
    | ok tx2 =>
      rw [hs] at h
      obtain ⟨h1, h2, h3, h4⟩ := ih tx2 tx1 h
      obtain ⟨p, _, htx2⟩ := applySignatureToInput_ok env tx tx2 info hs
      subst htx2
      exact ⟨h1, h2, h3, by rw [h4]; exact listModify_length _ _ _⟩

theorem applySignatures_getElem_untouched (env : Env) :
    ∀ (infos : List SigningInfo) (tx tx1 : Transaction) (k : Nat),
      applySignatures env tx infos = .ok tx1 →
      (∀ info ∈ infos, info.input_index ≠ k) →
      tx1.input[k]? = tx.input[k]? := by
  intro infos
  induction infos with
  | nil => intro tx tx1 k h _; cases h; rfl
  | cons info rest ih =>
    intro tx tx1 k h hne
    unfold applySignatures at h
    cases hs : applySignatureToInput env tx info with
    | error e => rw [hs] at h; cases h
    | ok tx2 =>
      rw [hs] at h
      obtain ⟨p, _, htx2⟩ := applySignatureToInput_ok env tx tx2 info hs
      have h5 := ih tx2 tx1 k h (fun i hi => hne i (List.mem_cons_of_mem _ hi))
      rw [h5, htx2]
      exact listModify_getElem_ne _ _ _ _ (fun hk =>
        hne info (List.mem_cons_self _ _) hk.symm)

theorem applySignatures_getElem_applied (env : Env) :
    ∀ (infos : List SigningInfo) (tx tx1 : Transaction) (i : Nat),
      infos.map SigningInfo.input_index = List.range' i infos.length →
      applySignatures env tx infos = .ok tx1 →
      ∀ k, k < infos.length →
        ∃ info p, infos[k]? = some info ∧ signaturePayload env info = .ok p ∧
          tx1.input[i + k]? = (tx.input[i + k]?).map (applyPayload p) := by
  intro infos
  induction infos with
  | nil => intro tx tx1 i _ _ k hk; exact absurd hk (by simp)
  | cons info rest ih =>
    intro tx tx1 i hidx h k hk
    have hlen : (info :: rest).length = rest.length + 1 := rfl
    rw [hlen, List.range'_succ] at hidx
    simp only [List.map_cons, List.cons.injEq] at hidx
    obtain ⟨hidx0, hidxrest⟩ := hidx
    unfold applySignatures at h
    cases hs : applySignatureToInput env tx info with
    | error e => rw [hs] at h; cases h
    | ok tx2 =>
      rw [hs] at h
      obtain ⟨p, hp, htx2⟩ := applySignatureToInput_ok env tx tx2 info hs
      cases k with
      | zero =>
        refine ⟨info, p, by simp, hp, ?_⟩
        have huntouched : tx1.input[i + 0]? = tx2.input[i + 0]? := by
          refine applySignatures_getElem_untouched env rest tx2 tx1 (i + 0) h ?_
          intro info1 hmem heq
          have : info1.input_index ∈ List.range' (i + 1) rest.length := by
            rw [← hidxrest]
            exact List.mem_map_of_mem _ hmem
          rw [List.mem_range'_1] at this
          omega
        rw [huntouched, htx2, hidx0]
        simpa using listModify_getElem_self (applyPayload p) tx.input i
      | succ k1 =>
        have hk1 : k1 < rest.length := by simpa using hk
        obtain ⟨info1, p1, hg, hp1, happ⟩ := ih tx2 tx1 (i + 1) hidxrest h k1 hk1
        refine ⟨info1, p1, by simpa using hg, hp1, ?_⟩
        have harith : i + (k1 + 1) = (i + 1) + k1 := by omega
        rw [harith, happ, htx2, hidx0]
        have : (listModify tx.input i (applyPayload p))[(i + 1) + k1]? =
            tx.input[(i + 1) + k1]? :=
          listModify_getElem_ne _ _ _ _ (by omega)
        rw [this]

/-! ## Helper lemmas about the digest loop -/

theorem computeSigningInfo_index (env : Env) (tx : Transaction) (i : Nat)
    (pu : ProcessedUtxo) (info : SigningInfo)
    (h : computeSigningInfo env tx i pu = .ok info) : info.input_index = i := by
  unfold computeSigningInfo at h
  cases hm : sighashMessageFor env tx i pu with
  | error e => rw [hm] at h; cases h
  | ok m => rw [hm] at h; cases h; rfl

theorem computeSigningInfosFrom_indices (env : Env) (tx : Transaction) :
    ∀ (pus : List ProcessedUtxo) (i : Nat) (infos : List SigningInfo),
      computeSigningInfosFrom env tx i pus = .ok infos →
      infos.map SigningInfo.input_index = List.range' i pus.length := by
  intro pus
  induction pus with
  | nil => intro i infos h; cases h; rfl
  | cons pu rest ih =>
    intro i infos h
    unfold computeSigningInfosFrom at h
    cases h1 : computeSigningInfo env tx i pu with
    | error e => rw [h1] at h; cases h
    | ok info =>
      rw [h1] at h
      cases h2 : computeSigningInfosFrom env tx (i + 1) rest with
      | error e => rw [h2] at h; cases h
      | ok infos1 =>
        rw [h2] at h
        cases h
        have := ih (i + 1) infos1 h2
        simp only [List.length_cons, List.range'_succ, List.map_cons, this,
          computeSigningInfo_index env tx i pu info h1]

theorem computeSigningInfosFrom_length (env : Env) (tx : Transaction) :
    ∀ (pus : List ProcessedUtxo) (i : Nat) (infos : List SigningInfo),
      computeSigningInfosFrom env tx i pus = .ok infos →
      infos.length = pus.length := by
  intro pus i infos h
  have := computeSigningInfosFrom_indices env tx pus i infos h
  have h2 := congrArg List.length this
  simpa using h2

theorem sighashMessageFor_not_unknown (env : Env) (tx : Transaction) (i : Nat)
    (pu : ProcessedUtxo)
    (hok : ScriptType.from_script_buf pu.tx_out.script_pubkey = .ok pu.script_type) :
    ∀ s, sighashMessageFor env tx i pu ≠ .error (.UnknownScriptType s) := by
  intro s h
  unfold ScriptType.from_script_buf at hok
  unfold sighashMessageFor p2wpkhScriptCode messageFromDigest at h
  by_cases h1 : isP2pkh pu.tx_out.script_pubkey
  · simp only [h1, if_true] at h
    split at h <;> [skip; simp_all]
    split at h <;> simp_all
  · by_cases h3 : isP2wpkh pu.tx_out.script_pubkey
    · simp [h1, h3] at h
      split at h <;> [skip; simp_all]
      split at h <;> simp_all
    · simp [h1, h3] at h hok

theorem computeSigningInfo_not_unknown (env : Env) (tx : Transaction) (i : Nat)
    (pu : ProcessedUtxo)
    (hok : ScriptType.from_script_buf pu.tx_out.script_pubkey = .ok pu.script_type) :
    ∀ s, computeSigningInfo env tx i pu ≠ .error (.UnknownScriptType s) := by
  intro s h
  unfold computeSigningInfo at h
  cases hm : sighashMessageFor env tx i pu with
  | error e =>
    rw [hm] at h
    cases h
    exact sighashMessageFor_not_unknown env tx i pu hok s hm
  | ok m => rw [hm] at h; cases h

theorem computeSigningInfosFrom_not_unknown (env : Env) (tx : Transaction) :
    ∀ (pus : List ProcessedUtxo) (i : Nat),
      (∀ pu ∈ pus, ScriptType.from_script_buf pu.tx_out.script_pubkey = .ok pu.script_type) →
      isUnknownScriptErr (computeSigningInfosFrom env tx i pus) = false := by
  intro pus
  induction pus with
  | nil => intro i _; rfl
  | cons pu rest ih =>
    intro i hok
    unfold computeSigningInfosFrom
    cases h1 : computeSigningInfo env tx i pu with
    | error e =>
      cases e <;> try rfl
      case UnknownScriptType s =>
        exact absurd h1 (computeSigningInfo_not_unknown env tx i pu
          (hok pu (List.mem_cons_self _ _)) s)
    | ok info =>
      cases h2 : computeSigningInfosFrom env tx (i + 1) rest with
      | error e =>
        have := ih (i + 1) (fun p hp => hok p (List.mem_cons_of_mem _ hp))
        rw [h2] at this
        exact this
      | ok infos => rfl

/-! ## Helper lemmas about normalization -/

theorem normalizeUtxo_mismatch (env : Env) (net : Network) (dflt : Option Nat)
    (u : UtxoInput) (pk : PrivateKey)
    (hwif : env.wifDecode u.private_key_wif = some pk)
    (hmm : pk.network ≠ net.toKind) :
    normalizeUtxo env net dflt u =
      .error (.NetworkMismatch net.debugStr pk.network.debugStr) := by
  unfold normalizeUtxo
  rw [hwif]
  simp [hmm]

theorem normalizeUtxos_mismatch (env : Env) (net : Network) (dflt : Option Nat) :
    ∀ (l : List UtxoInput) (i : Nat) (u : UtxoInput) (pk : PrivateKey),
      l[i]? = some u →
      (∀ j, j < i → ∀ v, l[j]? = some v → ∃ pu, normalizeUtxo env net dflt v = .ok pu) →
      env.wifDecode u.private_key_wif = some pk →
      pk.network ≠ net.toKind →
      normalizeUtxos env net dflt l =
        .error (.NetworkMismatch net.debugStr pk.network.debugStr) := by
  intro l
  induction l with
  | nil => intro i u pk hget; simp at hget
  | cons a rest ih =>
    intro i u pk hget hpre hwif hmm
    cases i with
    | zero =>
      simp only [List.getElem?_cons_zero, Option.some.injEq] at hget
      obtain rfl := hget
      unfold normalizeUtxos
      rw [normalizeUtxo_mismatch env net dflt a pk hwif hmm]
    | succ i1 =>
      simp only [List.getElem?_cons_succ] at hget
      obtain ⟨pu0, hpu0⟩ := hpre 0 (by omega) a (by simp)
      unfold normalizeUtxos
      rw [hpu0]
      have hrest := ih i1 u pk hget
        (fun j hj v hv => hpre (j + 1) (by omega) v (by simpa using hv)) hwif hmm
      rw [hrest]

/-! ## Helper lemmas about the assembled pipeline -/

theorem assembleUnsigned_input_length (pus : List ProcessedUtxo) (fo : List TxOut) :
    (assembleUnsigned pus fo).input.length = pus.length := by
  simp [assembleUnsigned]

theorem assembleUnsigned_all_empty (pus : List ProcessedUtxo) (fo : List TxOut) :
    allUnlockingEmpty (assembleUnsigned pus fo) = true := by
  simp [assembleUnsigned, allUnlockingEmpty, List.all_map]

/-- The run decomposes, once the three decoding stages are fixed, into
the sufficiency check, the digest pass over the frozen skeleton, and the
signing pass. -/
theorem run_success_shape (env : Env) (config : InputConfig) (net : Network)
    (tx : Transaction) (pus : List ProcessedUtxo) (totalIn : Nat)
    (outs : List TxOut) (totalOut : Nat) (cs : List Nat)
    (h1 : normalizeUtxos env net config.default_sequence config.utxos = .ok (pus, totalIn))
    (h2 : buildOutputs env net config.outputs = .ok (outs, totalOut))
    (h3 : env.addrScript config.change_address net = some cs)
    (hrun : create_and_sign_transaction env config net = .ok tx) :
    ¬ totalIn < totalOut + computeFee pus outs cs config.fee_rate_sats_per_vb ∧
    ∃ infos,
      computeSigningInfos env
        (assembleUnsigned pus
          (finalOutputsOf
            (totalIn - totalOut - computeFee pus outs cs config.fee_rate_sats_per_vb)
            outs cs)) pus = .ok infos ∧
      applySignatures env
        (assembleUnsigned pus
          (finalOutputsOf
            (totalIn - totalOut - computeFee pus outs cs config.fee_rate_sats_per_vb)
            outs cs)) infos = .ok tx := by
  unfold create_and_sign_transaction at hrun
  rw [h1, h2, h3] at hrun
  simp only [] at hrun
  by_cases hlt : totalIn < totalOut + computeFee pus outs cs config.fee_rate_sats_per_vb
  · rw [if_pos hlt] at hrun; cases hrun
  · rw [if_neg hlt] at hrun
    refine ⟨hlt, ?_⟩
    cases hinfos : computeSigningInfos env
        (assembleUnsigned pus
          (finalOutputsOf
            (totalIn - totalOut - computeFee pus outs cs config.fee_rate_sats_per_vb)
            outs cs)) pus with
    | error e => rw [hinfos] at hrun; cases hrun
    | ok infos => rw [hinfos] at hrun; exact ⟨infos, rfl, hrun⟩

theorem draftTxIn_eq_specDraftInput (pu : ProcessedUtxo) :
    draftTxIn pu = specDraftInput pu := by
  unfold draftTxIn specDraftInput
  cases pu.script_type <;> rfl

theorem feeDraftTx_eq_specDraftTx (pus : List ProcessedUtxo) (outs : List TxOut)
    (cs : List Nat) : feeDraftTx pus outs cs = specDraftTx pus outs cs := by
  unfold feeDraftTx specDraftTx
  rw [funext draftTxIn_eq_specDraftInput]

theorem txVsize_feeDraft_nil_pos (cs : List Nat) :
    0 < txVsize (feeDraftTx [] [] cs) := by
  have hb : 4 ≤ txBaseSize (feeDraftTx [] [] cs) := by
    unfold txBaseSize feeDraftTx
    simp only [List.map_nil, List.sum_nil, List.length_nil, List.map_cons, List.sum_cons]
    omega
  have ht : txTotalSize (feeDraftTx [] [] cs) = txBaseSize (feeDraftTx [] [] cs) := by
    unfold txTotalSize usesSegwit feeDraftTx
    simp
  unfold txVsize txWeight
  apply Nat.div_pos ?_ (by norm_num)
  omega

/-- Under fixed decoding stages, an insufficient total makes the run
return exactly the structured insufficient-funds error. -/
theorem run_insufficient (env : Env) (config : InputConfig) (net : Network)
    (pus : List ProcessedUtxo) (totalIn : Nat)
    (outs : List TxOut) (totalOut : Nat) (cs : List Nat)
    (h1 : normalizeUtxos env net config.default_sequence config.utxos = .ok (pus, totalIn))
    (h2 : buildOutputs env net config.outputs = .ok (outs, totalOut))
    (h3 : env.addrScript config.change_address net = some cs)
    (hlt : totalIn < totalOut + computeFee pus outs cs config.fee_rate_sats_per_vb) :
    create_and_sign_transaction env config net =
      .error (.InsufficientFunds totalIn
        (totalOut + computeFee pus outs cs config.fee_rate_sats_per_vb)
        (computeFee pus outs cs config.fee_rate_sats_per_vb)) := by
  simp only [create_and_sign_transaction, h1, h2, h3]
  rw [if_pos hlt]

/-! ## The claims -/

/-- Claim C6: script classification is total over byte sequences: a
script matching the P2PKH pattern classifies as P2PKH, one matching the
P2WPKH pattern classifies as P2WPKH, and every other byte sequence
yields the unknown-script-type error carrying exactly that script's hex
rendering.  `ScriptType.from_script_buf` is a total function of the
bytes, so it has no other failure mode and no side effects. -/
theorem c6_script_classification_total (s : List Nat) :
    (isP2pkh s = true → ScriptType.from_script_buf s = .ok .P2PKH) ∧
    (isP2wpkh s = true → ScriptType.from_script_buf s = .ok .P2WPKH) ∧
    (isP2pkh s = false → isP2wpkh s = false →
      ScriptType.from_script_buf s = .error (.UnknownScriptType (hexOfBytes s))) := by
  refine ⟨?_, ?_, ?_⟩
  · intro h; simp [ScriptType.from_script_buf, h]
  · intro h
    have h1 : isP2pkh s = false := by
      unfold isP2wpkh at h
      simp only [Bool.and_eq_true, beq_iff_eq] at h
      unfold isP2pkh
      simp [h.1]
    simp [ScriptType.from_script_buf, h1, h]
  · intro h1 h2; simp [ScriptType.from_script_buf, h1, h2]

/-- Witness for C6: one concrete script of each of the three kinds. -/
theorem c6_script_classification_total_witness :
    ScriptType.from_script_buf pkhScriptC = .ok .P2PKH ∧
    ScriptType.from_script_buf wpkhScriptA = .ok .P2WPKH ∧
    ScriptType.from_script_buf [0x6a] = .error (.UnknownScriptType (hexOfBytes [0x6a])) :=
  ⟨(c6_script_classification_total pkhScriptC).1 (by decide),
   (c6_script_classification_total wpkhScriptA).2.1 (by decide),
   (c6_script_classification_total [0x6a]).2.2 (by decide) (by decide)⟩

/-- Claim C7: a UTXO whose WIF-decoded private key embeds a network kind
different from the configured network makes the whole run abort with the
network-mismatch error naming the configured network and the key
network, provided the UTXOs before it normalize (the loop reports the
first failure). -/
theorem c7_network_mismatch_aborts (env : Env) (config : InputConfig) (net : Network)
    (i : Nat) (u : UtxoInput) (pk : PrivateKey)
    (hget : config.utxos[i]? = some u)
    (hpre : ∀ j, j < i → ∀ v, config.utxos[j]? = some v →
      ∃ pu, normalizeUtxo env net config.default_sequence v = .ok pu)
    (hwif : env.wifDecode u.private_key_wif = some pk)
    (hmm : pk.network ≠ net.toKind) :
    create_and_sign_transaction env config net =
      .error (.NetworkMismatch net.debugStr pk.network.debugStr) := by
  have hn := normalizeUtxos_mismatch env net config.default_sequence config.utxos i u pk
    hget hpre hwif hmm
  simp only [create_and_sign_transaction, hn]

/-- Witness for C7: the main-network key UTXO of `cfgM` aborts a testnet
run with both network names. -/
theorem c7_network_mismatch_aborts_witness :
    create_and_sign_transaction testEnv cfgM .testnet =
      .error (.NetworkMismatch "Testnet" "Main") :=
  c7_network_mismatch_aborts testEnv cfgM .testnet 0 utxoMain
    { network := .main, inner := 1, compressed := true }
    (by decide)
    (fun j hj _ _ => absurd hj (Nat.not_lt_zero j))
    (by decide)
    (by decide)

/-- Claim C9: when every processed UTXO carries a locking script the
classifier accepted for its recorded type (as the Normalizer guarantees),
the digest loop can never return the unknown-script-type error: its
fall-through branch is unreachable. -/
theorem c9_unknown_branch_unreachable (env : Env) (tx : Transaction)
    (pus : List ProcessedUtxo)
    (h : ∀ pu ∈ pus, ScriptType.from_script_buf pu.tx_out.script_pubkey = .ok pu.script_type) :
    isUnknownScriptErr (computeSigningInfos env tx pus) = false :=
  computeSigningInfosFrom_not_unknown env tx pus 0 h

/-- Witness for C9: the digest loop over the normalized UTXO of `cfgA`. -/
theorem c9_unknown_branch_unreachable_witness :
    isUnknownScriptErr (computeSigningInfos testEnv utxA pusA) = false :=
  c9_unknown_branch_unreachable testEnv utxA pusA (by decide)

/-- Claim C3: whenever the total input value is strictly below the total
recipient value plus the computed fee, the run fails with the
insufficient-funds error carrying exactly the available total, the
required total (recipient outputs plus fee) and the fee, and no
transaction is returned. -/
theorem c3_insufficient_funds_error (env : Env) (config : InputConfig) (net : Network)
    (pus : List ProcessedUtxo) (totalIn : Nat)
    (outs : List TxOut) (totalOut : Nat) (cs : List Nat)
    (h1 : normalizeUtxos env net config.default_sequence config.utxos = .ok (pus, totalIn))
    (h2 : buildOutputs env net config.outputs = .ok (outs, totalOut))
    (h3 : env.addrScript config.change_address net = some cs)
    (hlt : totalIn < totalOut + computeFee pus outs cs config.fee_rate_sats_per_vb) :
    create_and_sign_transaction env config net =
      .error (.InsufficientFunds totalIn
        (totalOut + computeFee pus outs cs config.fee_rate_sats_per_vb)
        (computeFee pus outs cs config.fee_rate_sats_per_vb)) :=
  run_insufficient env config net pus totalIn outs totalOut cs h1 h2 h3 hlt

/-- Witness for C3: input total 1000 against output total 2000 at fee
rate 1 fails with available 1000, required 2141, fee 141. -/
theorem c3_insufficient_funds_error_witness :
    create_and_sign_transaction testEnv cfgC .testnet =
      .error (.InsufficientFunds 1000 2141 141) := by
  have h := c3_insufficient_funds_error testEnv cfgC .testnet [puSmall] 1000
    [{ value := 2000, script_pubkey := wpkhScriptA }] 2000 wpkhScriptB
    (by decide) (by decide) (by decide) (by decide)
  simpa using h

/-- Claim C4: the fee is the draft virtual size (the ceiling of the
weight of the worst-case draft divided by four) times the configured fee
rate, in exact integer arithmetic, where the draft is `specDraftTx`:
dummy-signed inputs, the real recipient outputs and the zero-value dummy
change output carrying the real change locking script; and that exact
fee is the one the sufficiency check reports. -/
theorem c4_fee_from_worst_case_draft (env : Env) (config : InputConfig) (net : Network)
    (pus : List ProcessedUtxo) (totalIn : Nat)
    (outs : List TxOut) (totalOut : Nat) (cs : List Nat)
    (h1 : normalizeUtxos env net config.default_sequence config.utxos = .ok (pus, totalIn))
    (h2 : buildOutputs env net config.outputs = .ok (outs, totalOut))
    (h3 : env.addrScript config.change_address net = some cs) :
    computeFee pus outs cs config.fee_rate_sats_per_vb =
      ((txWeight (specDraftTx pus outs cs) + 3) / 4) * config.fee_rate_sats_per_vb ∧
    (totalIn < totalOut +
        ((txWeight (specDraftTx pus outs cs) + 3) / 4) * config.fee_rate_sats_per_vb →
      create_and_sign_transaction env config net =
        .error (.InsufficientFunds totalIn
          (totalOut +
            ((txWeight (specDraftTx pus outs cs) + 3) / 4) * config.fee_rate_sats_per_vb)
          (((txWeight (specDraftTx pus outs cs) + 3) / 4) * config.fee_rate_sats_per_vb))) := by
  have hfee : computeFee pus outs cs config.fee_rate_sats_per_vb =
      ((txWeight (specDraftTx pus outs cs) + 3) / 4) * config.fee_rate_sats_per_vb := by
    unfold computeFee txVsize
    rw [feeDraftTx_eq_specDraftTx]
  refine ⟨hfee, fun hlt => ?_⟩
  rw [← hfee] at hlt
  have h := run_insufficient env config net pus totalIn outs totalOut cs h1 h2 h3 hlt
  rw [hfee] at h
  exact h

/-- Witness for C4 on `cfgC`: the draft weight is 562, the vsize 141,
the fee 141, and the reported insufficiency figures follow. -/
theorem c4_fee_from_worst_case_draft_witness :
    computeFee [puSmall] [{ value := 2000, script_pubkey := wpkhScriptA }] wpkhScriptB 1 =
      ((txWeight (specDraftTx [puSmall]
          [{ value := 2000, script_pubkey := wpkhScriptA }] wpkhScriptB) + 3) / 4) * 1 ∧
    (1000 < 2000 +
        ((txWeight (specDraftTx [puSmall]
          [{ value := 2000, script_pubkey := wpkhScriptA }] wpkhScriptB) + 3) / 4) * 1 →
      create_and_sign_transaction testEnv cfgC .testnet =
        .error (.InsufficientFunds 1000
          (2000 +
            ((txWeight (specDraftTx [puSmall]
              [{ value := 2000, script_pubkey := wpkhScriptA }] wpkhScriptB) + 3) / 4) * 1)
          (((txWeight (specDraftTx [puSmall]
              [{ value := 2000, script_pubkey := wpkhScriptA }] wpkhScriptB) + 3) / 4) * 1))) :=
  c4_fee_from_worst_case_draft testEnv cfgC .testnet [puSmall] 1000
    [{ value := 2000, script_pubkey := wpkhScriptA }] 2000 wpkhScriptB
    (by decide) (by decide) (by decide)

/-- Claim C2: every run that returns a signed transaction conserves
value: the total input value equals the total recipient value plus the
computed fee plus the change amount, and the change amount appears as a
final output exactly when it reaches 546 satoshis. -/
theorem c2_value_conservation (env : Env) (config : InputConfig) (net : Network)
    (tx : Transaction) (pus : List ProcessedUtxo) (totalIn : Nat)
    (outs : List TxOut) (totalOut : Nat) (cs : List Nat)
    (h1 : normalizeUtxos env net config.default_sequence config.utxos = .ok (pus, totalIn))
    (h2 : buildOutputs env net config.outputs = .ok (outs, totalOut))
    (h3 : env.addrScript config.change_address net = some cs)
    (hrun : create_and_sign_transaction env config net = .ok tx) :
    totalIn = totalOut + computeFee pus outs cs config.fee_rate_sats_per_vb +
      (totalIn - totalOut - computeFee pus outs cs config.fee_rate_sats_per_vb) ∧
    (tx.output =
        outs ++ [{ value := totalIn - totalOut - computeFee pus outs cs config.fee_rate_sats_per_vb
                 , script_pubkey := cs }] ↔
      DUST_THRESHOLD_SATS ≤
        totalIn - totalOut - computeFee pus outs cs config.fee_rate_sats_per_vb) := by
  obtain ⟨hge, infos, hinfos, happly⟩ :=
    run_success_shape env config net tx pus totalIn outs totalOut cs h1 h2 h3 hrun
  obtain ⟨_, _, hout, _⟩ := applySignatures_preserves env infos _ tx happly
  have hout2 : tx.output =
      finalOutputsOf (totalIn - totalOut - computeFee pus outs cs config.fee_rate_sats_per_vb)
        outs cs := by
    rw [hout]; rfl
  constructor
  · omega
  · rw [hout2]
    unfold finalOutputsOf
    by_cases hd : DUST_THRESHOLD_SATS ≤
        totalIn - totalOut - computeFee pus outs cs config.fee_rate_sats_per_vb
    · rw [if_pos hd]
      simp [hd]
    · rw [if_neg hd]
      constructor
      · intro heq
        have hlen := congrArg List.length heq
        simp at hlen
      · intro hge2
        exact absurd hge2 hd

/-- Witness for C2 on `cfgA`: input 100000, recipient 50000, fee 141,
change 49859 appended as the final output. -/
theorem c2_value_conservation_witness :
    100000 = 50000 + computeFee pusA outsA wpkhScriptB 1 +
      (100000 - 50000 - computeFee pusA outsA wpkhScriptB 1) ∧
    (txA.output =
        outsA ++ [{ value := 100000 - 50000 - computeFee pusA outsA wpkhScriptB 1
                  , script_pubkey := wpkhScriptB }] ↔
      DUST_THRESHOLD_SATS ≤ 100000 - 50000 - computeFee pusA outsA wpkhScriptB 1) :=
  c2_value_conservation testEnv cfgA .testnet txA pusA 100000 outsA 50000 wpkhScriptB
    (by decide) (by decide) (by decide) (by decide)

/-- Claim C5: on every successful run, a change amount at or above the
dust threshold is appended after all recipient outputs as an output with
exactly that value and the change locking script, preserving the
recipient order; a change amount below the threshold (zero or dust)
produces no change output while the run still succeeds. -/
theorem c5_dust_policy (env : Env) (config : InputConfig) (net : Network)
    (tx : Transaction) (pus : List ProcessedUtxo) (totalIn : Nat)
    (outs : List TxOut) (totalOut : Nat) (cs : List Nat)
    (h1 : normalizeUtxos env net config.default_sequence config.utxos = .ok (pus, totalIn))
    (h2 : buildOutputs env net config.outputs = .ok (outs, totalOut))
    (h3 : env.addrScript config.change_address net = some cs)
    (hrun : create_and_sign_transaction env config net = .ok tx) :
    (DUST_THRESHOLD_SATS ≤
        totalIn - totalOut - computeFee pus outs cs config.fee_rate_sats_per_vb →
      tx.output =
        outs ++ [{ value := totalIn - totalOut - computeFee pus outs cs config.fee_rate_sats_per_vb
                 , script_pubkey := cs }]) ∧
    (totalIn - totalOut - computeFee pus outs cs config.fee_rate_sats_per_vb <
        DUST_THRESHOLD_SATS →
      tx.output = outs) := by
  obtain ⟨hge, infos, hinfos, happly⟩ :=
    run_success_shape env config net tx pus totalIn outs totalOut cs h1 h2 h3 hrun
  obtain ⟨_, _, hout, _⟩ := applySignatures_preserves env infos _ tx happly
  have hout2 : tx.output =
      finalOutputsOf (totalIn - totalOut - computeFee pus outs cs config.fee_rate_sats_per_vb)
        outs cs := by
    rw [hout]; rfl
  constructor
  · intro hd
    rw [hout2]
    unfold finalOutputsOf
    rw [if_pos hd]
  · intro hd
    rw [hout2]
    unfold finalOutputsOf
    rw [if_neg (by omega)]

/-- Witness for C5 on `cfgB`: change 359 is dust, the run still succeeds
and only the recipient output is present. -/
theorem c5_dust_policy_witness :
    (DUST_THRESHOLD_SATS ≤
        100000 - 99500 - computeFee pusA [{ value := 99500, script_pubkey := wpkhScriptA }]
          wpkhScriptB 1 →
      txB.output =
        [{ value := 99500, script_pubkey := wpkhScriptA }] ++
          [{ value := 100000 - 99500 - computeFee pusA
              [{ value := 99500, script_pubkey := wpkhScriptA }] wpkhScriptB 1
            , script_pubkey := wpkhScriptB }]) ∧
    (100000 - 99500 - computeFee pusA [{ value := 99500, script_pubkey := wpkhScriptA }]
        wpkhScriptB 1 < DUST_THRESHOLD_SATS →
      txB.output = [{ value := 99500, script_pubkey := wpkhScriptA }]) :=
  c5_dust_policy testEnv cfgB .testnet txB pusA 100000
    [{ value := 99500, script_pubkey := wpkhScriptA }] 99500 wpkhScriptB
    (by decide) (by decide) (by decide) (by decide)

/-- Claim C8: on every successful run the digest pass runs to completion
over the frozen unsigned skeleton, whose unlocking fields are all empty,
producing exactly one record per input with matching indices in order;
only then does the signing pass write, and the final transaction holds,
at every index, the matching skeleton input with exactly the one
unlocking payload of the record at that index applied. -/
theorem c8_two_phase_signing (env : Env) (config : InputConfig) (net : Network)
    (tx : Transaction) (pus : List ProcessedUtxo) (totalIn : Nat)
    (outs : List TxOut) (totalOut : Nat) (cs : List Nat) (infos : List SigningInfo)
    (h1 : normalizeUtxos env net config.default_sequence config.utxos = .ok (pus, totalIn))
    (h2 : buildOutputs env net config.outputs = .ok (outs, totalOut))
    (h3 : env.addrScript config.change_address net = some cs)
    (hrun : create_and_sign_transaction env config net = .ok tx)
    (hinfos : computeSigningInfos env
      (assembleUnsigned pus
        (finalOutputsOf
          (totalIn - totalOut - computeFee pus outs cs config.fee_rate_sats_per_vb)
          outs cs)) pus = .ok infos) :
    allUnlockingEmpty (assembleUnsigned pus
      (finalOutputsOf
        (totalIn - totalOut - computeFee pus outs cs config.fee_rate_sats_per_vb)
        outs cs)) = true ∧
    infos.map SigningInfo.input_index = List.range pus.length ∧
    applySignatures env
      (assembleUnsigned pus
        (finalOutputsOf
          (totalIn - totalOut - computeFee pus outs cs config.fee_rate_sats_per_vb)
          outs cs)) infos = .ok tx ∧
    signaturesAppliedPointwise env
      (assembleUnsigned pus
        (finalOutputsOf
          (totalIn - totalOut - computeFee pus outs cs config.fee_rate_sats_per_vb)
          outs cs)) infos tx = true := by
  obtain ⟨hge, infos2, hinfos2, happly⟩ :=
    run_success_shape env config net tx pus totalIn outs totalOut cs h1 h2 h3 hrun
  have heq : infos2 = infos := by
    rw [hinfos] at hinfos2
    cases hinfos2
    rfl
  subst heq
  have hidx := computeSigningInfosFrom_indices env _ pus 0 infos2 hinfos
  have hlen : infos2.length = pus.length :=
    computeSigningInfosFrom_length env _ pus 0 infos2 hinfos
  refine ⟨assembleUnsigned_all_empty _ _, ?_, happly, ?_⟩
  · rw [List.range_eq_range']
    exact hidx
  · unfold signaturesAppliedPointwise
    rw [List.all_eq_true]
    intro k hkmem
    rw [List.mem_range] at hkmem
    obtain ⟨info, p, hg, hp, happk⟩ :=
      applySignatures_getElem_applied env infos2 _ tx 0 (by rw [hidx, hlen]) happly k hkmem
    have hklen : k <
        (assembleUnsigned pus
          (finalOutputsOf
            (totalIn - totalOut - computeFee pus outs cs config.fee_rate_sats_per_vb)
            outs cs)).input.length := by
      rw [assembleUnsigned_input_length]
      omega
    obtain ⟨orig, horig⟩ :
        ∃ o, (assembleUnsigned pus
          (finalOutputsOf
            (totalIn - totalOut - computeFee pus outs cs config.fee_rate_sats_per_vb)
            outs cs)).input[k]? = some o :=
      ⟨_, List.getElem?_eq_getElem hklen⟩
    simp only [Nat.zero_add] at happk
    rw [horig] at happk
    simp [hg, horig, happk, hp]

/-- Witness for C8 on `cfgA`: the one-record digest pass and the
pointwise application on the concrete run. -/
theorem c8_two_phase_signing_witness :
    allUnlockingEmpty (assembleUnsigned pusA
      (finalOutputsOf (100000 - 50000 - computeFee pusA outsA wpkhScriptB 1)
        outsA wpkhScriptB)) = true ∧
    infosA.map SigningInfo.input_index = List.range pusA.length ∧
    applySignatures testEnv
      (assembleUnsigned pusA
        (finalOutputsOf (100000 - 50000 - computeFee pusA outsA wpkhScriptB 1)
          outsA wpkhScriptB)) infosA = .ok txA ∧
    signaturesAppliedPointwise testEnv
      (assembleUnsigned pusA
        (finalOutputsOf (100000 - 50000 - computeFee pusA outsA wpkhScriptB 1)
          outsA wpkhScriptB)) infosA txA = true :=
  c8_two_phase_signing testEnv cfgA .testnet txA pusA 100000 outsA 50000 wpkhScriptB infosA
    (by decide) (by decide) (by decide) (by decide) (by decide)

/-- Claim C10: an empty UTXO list is not rejected as such.  With no
UTXOs and no recipient outputs (and a valid change address) the run
succeeds exactly when the fee rate is zero, returning the version-2,
lock-time-0 transaction with no inputs and no outputs; with a positive
fee rate the draft virtual size is positive, so the fee is positive and
the run fails with insufficient funds reporting an available total of
zero and a required total equal to the fee. -/
theorem c10_empty_config (env : Env) (config : InputConfig) (net : Network) (cs : List Nat)
    (hU : config.utxos = []) (hO : config.outputs = [])
    (hC : env.addrScript config.change_address net = some cs) :
    (config.fee_rate_sats_per_vb = 0 →
      create_and_sign_transaction env config net =
        .ok { version := 2, lock_time := 0, input := [], output := [] }) ∧
    (0 < config.fee_rate_sats_per_vb →
      0 < computeFee [] [] cs config.fee_rate_sats_per_vb ∧
      create_and_sign_transaction env config net =
        .error (.InsufficientFunds 0 (computeFee [] [] cs config.fee_rate_sats_per_vb)
          (computeFee [] [] cs config.fee_rate_sats_per_vb))) := by
  constructor
  · intro hr
    have hfee : computeFee [] [] cs config.fee_rate_sats_per_vb = 0 := by
      rw [hr]; simp [computeFee]
    simp only [create_and_sign_transaction, hU, hO, normalizeUtxos, buildOutputs, hC, hfee]
    simp [finalOutputsOf, DUST_THRESHOLD_SATS, assembleUnsigned, computeSigningInfos,
      computeSigningInfosFrom, applySignatures]
  · intro hr
    have hpos : 0 < computeFee [] [] cs config.fee_rate_sats_per_vb := by
      unfold computeFee
      exact Nat.mul_pos (txVsize_feeDraft_nil_pos cs) hr
    refine ⟨hpos, ?_⟩
    simp only [create_and_sign_transaction, hU, hO, normalizeUtxos, buildOutputs, hC]
    rw [if_pos (by omega)]
    simp

/-- Witness for C10 on the empty fee-rate-0 configuration `cfgE0`. -/
theorem c10_empty_config_witness :
    (cfgE0.fee_rate_sats_per_vb = 0 →
      create_and_sign_transaction testEnv cfgE0 .testnet =
        .ok { version := 2, lock_time := 0, input := [], output := [] }) ∧
    (0 < cfgE0.fee_rate_sats_per_vb →
      0 < computeFee [] [] wpkhScriptB cfgE0.fee_rate_sats_per_vb ∧
      create_and_sign_transaction testEnv cfgE0 .testnet =
        .error (.InsufficientFunds 0 (computeFee [] [] wpkhScriptB cfgE0.fee_rate_sats_per_vb)
          (computeFee [] [] wpkhScriptB cfgE0.fee_rate_sats_per_vb))) :=
  c10_empty_config testEnv cfgE0 .testnet wpkhScriptB (by decide) (by decide) (by decide)

/-- Claim C1 (code bug): the signing pass converts the 64-byte compact
ECDSA serialization through `Signature::from_slice`, which parses a
strict-DER body plus a trailing sighash byte; a compact serialization is
not DER (its first byte is the leading byte of r, not the 0x30 compound
tag), so the conversion fails and the run aborts with a signature error
at input 0 instead of producing the DER-plus-sighash-byte blob the spec
describes.  Evaluated here on a one-P2WPKH-input configuration with a
signing backend returning a realistic compact serialization. -/
theorem c1_compact_signature_conversion_bug :
    create_and_sign_transaction compactEnv cfgA .testnet = .error (.SignatureError 0) := by
  decide

end TxSigner

